import Mathlib

/-!
# Request-logging interceptor (`main.go`): model and properties

A shallow embedding of `main.go`: the redactor `filterSensitiveData`, the entry
formatter and log store inside `logRequest`, the retrieval handler
`getLogHandler` and the middleware installed by `main`.

Modelling conventions
* Go `string` and `[]byte` values are Lean `String`s (UTF-8 text).
* A `map[string]interface{}` decoded from JSON is a `JMap`: a list of bindings
  whose keys are pairwise different; `JMap.lookup` is the map access.
* Functions of the Go libraries whose result the program only passes on
  (`encoding/json`, `path/filepath`, the Unicode case tables, `fmt` with `%v`)
  are fields of `Lib`; every theorem holds for every `Lib`.
* `time.Parse`/`Time.Format` for the two fixed layouts, `strings.Contains`,
  the ASCII part of `strings.ToLower`, and the response writer of gin are
  modelled concretely.
* The file system is a `Store`; which calls of a request report an error is
  given by a `Faults` value, so that every `if err != nil` branch of the source
  can be taken.
* The handlers that follow the middleware in the chain are a function `rest`
  on the response context; `Ctx.next` is `c.Next()`.
-/

namespace LogNginx

/-! ## Strings -/

/-- Library call `unicode.ToLower`: the ASCII range is handled inline, every other
rune is looked up in the Unicode case tables, here `tbl`. -/
def lowerRune (tbl : Char → Char) (r : Char) : Char :=
  if r.toNat ≤ 127 then
    if 'A' ≤ r ∧ r ≤ 'Z' then Char.ofNat (r.toNat + 32) else r
  else tbl r

/-- Library call `strings.ToLower`. -/
def toLower (tbl : Char → Char) (s : String) : String :=
  String.mk (s.data.map (lowerRune tbl))

/-- Substring search behind `strings.Contains`: `sub` starts at some position of `s`. -/
def containsChars : List Char → List Char → Bool
  | s, sub => sub.isPrefixOf s || match s with
      | [] => false
      | _ :: t => containsChars t sub

/-- Library call `strings.Contains`. -/
def contains (s sub : String) : Bool := containsChars s.data sub.data

/-! ## Decoded JSON values -/

mutual
/-- What `json.Unmarshal` stores in an `interface{}`: `nil`, `bool`, `float64`
(kept as its bit pattern; the program never inspects it), `string`,
`[]interface{}` and `map[string]interface{}`. -/
inductive JValue where
  | null
  | bool (b : Bool)
  | number (bits : Nat)
  | str (s : String)
  | arr (xs : JArr)
  | obj (m : JMap)
/-- A `[]interface{}`. -/
inductive JArr where
  | nil
  | cons (v : JValue) (rest : JArr)
/-- A `map[string]interface{}` as a list of bindings. -/
inductive JMap where
  | nil
  | cons (k : String) (v : JValue) (rest : JMap)
end

deriving instance DecidableEq for JValue, JArr, JMap

/-- The keys of a record, in binding order. -/
def JMap.keys : JMap → List String
  | .nil => []
  | .cons k _ rest => k :: rest.keys

/-- Map access `m[k]`. -/
def JMap.lookup (k : String) : JMap → Option JValue
  | .nil => none
  | .cons k' v rest => if k' = k then some v else rest.lookup k

/-- Values bound to `key` that are reached from the top of a record by going
through nested records only. -/
def JMap.recordBindings (key : String) : JMap → List JValue
  | .nil => []
  | .cons k v rest =>
    (if k = key then [v] else []) ++
      (match v with
        | .obj m => m.recordBindings key
        | _ => []) ++ rest.recordBindings key

mutual
/-- Values bound to `key` anywhere inside a value, through records and arrays. -/
def JValue.bindings (key : String) : JValue → List JValue
  | .obj m => m.bindings key
  | .arr xs => xs.bindings key
  | _ => []
/-- Values bound to `key` anywhere inside the elements of an array. -/
def JArr.bindings (key : String) : JArr → List JValue
  | .nil => []
  | .cons v rest => v.bindings key ++ rest.bindings key
/-- Values bound to `key` anywhere inside a record. -/
def JMap.bindings (key : String) : JMap → List JValue
  | .nil => []
  | .cons k v rest => (if k = key then [v] else []) ++ v.bindings key ++ rest.bindings key
end

/-! ## Redactor -/

/-- The list `sensitiveKeys` of `filterSensitiveData`. -/
def sensitiveKeys : List String :=
  ["password", "pwd", "secret", "token", "api_key", "apikey", "key"]

/-- The redaction marker. -/
def redacted : JValue := .str "[REDACTED]"

/-- The inner loop of `filterSensitiveData` computing `isSensitive` for key `k`. -/
def isSensitive (tbl : Char → Char) (k : String) : Bool :=
  sensitiveKeys.any fun sk => toLower tbl k == sk || contains (toLower tbl k) sk

/-- Source function `filterSensitiveData`: every binding of `data` is copied into
the result, with the marker for a sensitive key, the filtered record for a
nested record, and the value itself otherwise. -/
def filterSensitiveData (tbl : Char → Char) : JMap → JMap
  | .nil => .nil
  | .cons k v rest =>
    .cons k
      (if isSensitive tbl k then redacted
       else match v with
         | .obj nestedMap => .obj (filterSensitiveData tbl nestedMap)
         | w => w)
      (filterSensitiveData tbl rest)

/-- What `filterSensitiveData` stores under the key `k` whose value is `v`
(the body of its `for k, v := range data` loop). -/
def redactValue (tbl : Char → Char) (k : String) (v : JValue) : JValue :=
  if isSensitive tbl k then redacted
  else match v with
    | .obj nestedMap => .obj (filterSensitiveData tbl nestedMap)
    | w => w

/-- The sensitive-key rule in the words of the specification: the lower-cased key
equals, or contains as a substring, one of the listed words. -/
def SensitiveKeyRule (tbl : Char → Char) (k : String) : Prop :=
  ∃ sk ∈ sensitiveKeys, toLower tbl k = sk ∨ sk.data <:+: (toLower tbl k).data

/-! ## Library functions taken as parameters -/

/-- The two ways `json.Unmarshal` into a `map[string]interface{}` fails: the
input is not JSON text, or it is JSON that does not fit the target. -/
inductive JsonError where
  | malformed
  | wrongType
  deriving DecidableEq

/-- Library functions whose results `main.go` passes on without looking inside. -/
structure Lib where
  /-- The Unicode lower-case table for runes outside ASCII. -/
  lowerTable : Char → Char
  /-- The call `json.Unmarshal(bodyBytes, &bodyData)`. -/
  jsonUnmarshal : String → Except JsonError JMap
  /-- The call `json.MarshalIndent(filteredData, "", "  ")`, `none` for an error. -/
  marshalIndentBody : JMap → Option String
  /-- The call `json.MarshalIndent(flattenedHeaders, "", "  ")`, `none` for an error. -/
  marshalIndentHeaders : List (String × String) → Option String
  /-- The call `fmt.Sprintf("%v", flattenedHeaders)`. -/
  sprintV : List (String × String) → String
  /-- The function `filepath.Join` on two elements. -/
  filepathJoin : String → String → String

/-! ## Time: `Time.Format` and `time.Parse` for the layouts of `main.go` -/

/-- The calendar fields of a `time.Time` in its location. -/
structure Time where
  year : Nat
  month : Nat
  day : Nat
  hour : Nat
  minute : Nat
  second : Nat

/-- The decimal digit `n % 10` as a character. -/
def digitChar (n : Nat) : Char := Char.ofNat (48 + n % 10)

/-- The decimal digits of `x`, zero-padded to at least `width` digits
(`appendInt` of package `time`, for a value that is not negative). -/
def appendInt : Nat → Nat → List Char
  | x, 0 => if x = 0 then [] else Nat.toDigits 10 x
  | x, w + 1 => appendInt (x / 10) w ++ [digitChar x]

/-- Library call `now.Format(dateFormat)` with `dateFormat = "2006-01-02"`. -/
def formatDate (t : Time) : String :=
  String.mk (appendInt t.year 4 ++ '-' :: appendInt t.month 2 ++ '-' :: appendInt t.day 2)

/-- Library call `now.Format(timeFormat)` with `timeFormat = "2006-01-02 15:04:05"`. -/
def formatTime (t : Time) : String :=
  String.mk (appendInt t.year 4 ++ '-' :: appendInt t.month 2 ++ '-' :: appendInt t.day 2 ++
    ' ' :: appendInt t.hour 2 ++ ':' :: appendInt t.minute 2 ++ ':' :: appendInt t.second 2)

/-- Library call `isDigit` of package `time`. -/
def isDigit (c : Char) : Bool := decide ('0' ≤ c) && decide (c ≤ '9')

/-- The value of a digit character. -/
def digitVal (c : Char) : Nat := c.toNat - 48

/-- Library call `getnum(s, true)` of package `time`: exactly two digits. -/
def getnum2 : List Char → Option (Nat × List Char)
  | a :: b :: rest =>
    if isDigit a && isDigit b then some (digitVal a * 10 + digitVal b, rest) else none
  | _ => none

/-- Library call `isLeap` of package `time`. -/
def isLeap (year : Nat) : Bool :=
  year % 4 == 0 && (year % 100 != 0 || year % 400 == 0)

/-- Library call `daysIn` of package `time`. -/
def daysIn (month year : Nat) : Nat :=
  if month = 2 ∧ isLeap year = true then 29
  else match month with
    | 2 => 28
    | 4 => 30
    | 6 => 30
    | 9 => 30
    | 11 => 30
    | _ => 31

/-- Library call `time.Parse(dateFormat, value)`: four digits of year, `-`, two
digits of month in 1..12, `-`, two digits of day, nothing after them, and the day within
the month; `none` is a parse error. -/
def parseDate (value : String) : Option (Nat × Nat × Nat) :=
  match value.data with
  | y1 :: y2 :: y3 :: y4 :: rest =>
    if isDigit y1 && isDigit y2 && isDigit y3 && isDigit y4 then
      let year := digitVal y1 * 1000 + digitVal y2 * 100 + digitVal y3 * 10 + digitVal y4
      match rest with
      | '-' :: rest =>
        match getnum2 rest with
        | some (month, rest) =>
          if month = 0 ∨ 12 < month then none
          else match rest with
            | '-' :: rest =>
              match getnum2 rest with
              | some (day, []) =>
                if day < 1 ∨ daysIn month year < day then none else some (year, month, day)
              | _ => none
            | _ => none
        | none => none
      | _ => none
    else none
  | _ => none

/-! ## Constants and the log store -/

/-- The constant `logDir`. -/
def logDir : String := "logs"

/-- Library call `fmt.Sprintf(logFileFormat, date)` with `logFileFormat = "log_%s.log"`. -/
def logFileName (date : String) : String := "log_" ++ date ++ ".log"

/-- Source function `getLogFilePath`. -/
def getLogFilePath (lib : Lib) (date : String) : String :=
  lib.filepathJoin logDir (logFileName date)

/-- The part of the file system the program touches: whether the directory
`logs` exists, and the text of each file by path (`none`: no such file). -/
structure Store where
  dirExists : Bool
  files : String → Option String

/-- Which input/output calls of one request report an error. `writeString` is
`some n` when `WriteString` fails after `n` characters went out. -/
structure Faults where
  mkdirAll : Bool
  readAll : Bool
  openFile : Bool
  writeString : Option Nat
  readFile : Bool

/-- No call fails. -/
def Faults.none : Faults :=
  { mkdirAll := false, readAll := false, openFile := false, writeString := Option.none,
    readFile := false }

/-- Source function `ensureLogDir`: `os.MkdirAll` is called only when `os.Stat`
reports that the directory does not exist; `none` is its error. -/
def ensureLogDir (flt : Faults) (st : Store) : Option Store :=
  if st.dirExists then some st
  else if flt.mkdirAll then Option.none
  else some { st with dirExists := true }

/-- Library call `os.OpenFile(path, os.O_APPEND|os.O_CREATE|os.O_WRONLY, 0644)`:
the file is created empty when it is not there; `none` is the error. It fails
when the directory is missing. -/
def openAppend (flt : Faults) (path : String) (st : Store) : Option Store :=
  if flt.openFile || !st.dirExists then Option.none
  else some { st with files := fun p =>
    if p = path then some ((st.files path).getD "") else st.files p }

/-- Library call `logFile.WriteString(logEntry)` on a file opened for appending:
the new store and whether the call succeeded. -/
def writeString (flt : Faults) (path : String) (logEntry : String) (st : Store) :
    Store × Bool :=
  match flt.writeString with
  | Option.none =>
    ({ st with files := fun p =>
        if p = path then some ((st.files path).getD "" ++ logEntry) else st.files p }, true)
  | some n =>
    ({ st with files := fun p =>
        if p = path then some ((st.files path).getD "" ++ String.mk (logEntry.data.take n))
        else st.files p }, false)

/-- The append of `logRequest` (lines 132-145): open the file of `date` for
appending and write `logEntry`; the error message of the failing step, if any. -/
def appendEntry (lib : Lib) (flt : Faults) (date logEntry : String) (st : Store) :
    Store × Option String :=
  let logFilePath := getLogFilePath lib date
  match openAppend flt logFilePath st with
  | Option.none => (st, some "Failed to open log file")
  | some st1 =>
    match writeString flt logFilePath logEntry st1 with
    | (st2, false) => (st2, some "Failed to write log entry")
    | (st2, true) => (st2, Option.none)

/-! ## The response writer of gin -/

/-- The response under construction (`gin.Context`, its writer): the status
code, whether the header went out, the body written so far, and whether the
handlers after the running one have been run. -/
structure Ctx where
  status : Nat
  written : Bool
  body : String
  chainDone : Bool

/-- Library call `responseWriter.WriteHeader`: a status differing from the current
one is taken only while nothing has been written. -/
def Ctx.writeHeader (c : Ctx) (code : Nat) : Ctx :=
  if 0 < code ∧ c.status ≠ code then
    if c.written then c else { c with status := code }
  else c

/-- Library call `responseWriter.Write`: the bytes are appended to the body. -/
def Ctx.write (c : Ctx) (data : String) : Ctx :=
  { c with written := true, body := c.body ++ data }

/-- The JSON text of `gin.H{key: val}` for the keys and messages of `main.go`,
none of which needs escaping. -/
def jsonH (key val : String) : String :=
  "\x7b\"" ++ key ++ "\":\"" ++ val ++ "\"\x7d"

/-- Library call `c.JSON(code, gin.H{key: val})`. -/
def Ctx.JSON (c : Ctx) (code : Nat) (key val : String) : Ctx :=
  (c.writeHeader code).write (jsonH key val)

/-- Library call `c.String(code, text)` without format arguments. -/
def Ctx.String (c : Ctx) (code : Nat) (text : String) : Ctx :=
  (c.writeHeader code).write text

/-- Library call `c.Next()`: run the handlers after the running one, here `rest`,
unless they ran already. -/
def Ctx.next (rest : Ctx → Ctx) (c : Ctx) : Ctx :=
  if c.chainDone then c
  else { rest { c with chainDone := true } with chainDone := true }

/-- The context of a request whose route matched: status 200, nothing written. -/
def Ctx.fresh : Ctx := { status := 200, written := false, body := "", chainDone := false }

/-- The context of a request that matched no route: gin presets the status 404
and runs the middleware chain alone. -/
def Ctx.unmatched : Ctx := { status := 404, written := false, body := "", chainDone := false }

/-! ## Requests and the entry formatter -/

/-- What the handlers read from `c.Request`: method, `URL.String()`, `URL.Path`,
the header map, the bytes of the body and the query parameter `date`. -/
structure Request where
  method : String
  url : String
  path : String
  header : List (String × List String)
  body : String
  date : Option String

/-- Body formatting of `logRequest` (lines 85-104). -/
def formatBody (lib : Lib) (bodyBytes : String) : String :=
  if bodyBytes.length > 0 then
    match lib.jsonUnmarshal bodyBytes with
    | .ok bodyData =>
      let filteredData := filterSensitiveData lib.lowerTable bodyData
      match lib.marshalIndentBody filteredData with
      | some filteredJSON => filteredJSON
      | Option.none => bodyBytes
    | .error _ => bodyBytes
  else ""

/-- Header flattening of `logRequest` (lines 106-112): the first value of each
header that has one. -/
def flattenHeaders : List (String × List String) → List (String × String)
  | [] => []
  | (key, values) :: rest =>
    match values with
    | [] => flattenHeaders rest
    | v :: _ => (key, v) :: flattenHeaders rest

/-- Header formatting of `logRequest` (lines 114-121). -/
def formatHeaders (lib : Lib) (flattenedHeaders : List (String × String)) : String :=
  match lib.marshalIndentHeaders flattenedHeaders with
  | some headerJSON => headerJSON
  | Option.none => lib.sprintV flattenedHeaders

/-- The `fmt.Sprintf` of `logRequest` (lines 124-130) with the format
`"#---\ntime: %s\n%s %s\n%s\n\n%s\n---\n"`. -/
def sprintfEntry (timeStr method url headerFormatted bodyFormatted : String) : String :=
  "#---\ntime: " ++ timeStr ++ "\n" ++ method ++ " " ++ url ++ "\n" ++ headerFormatted ++
    "\n\n" ++ bodyFormatted ++ "\n---\n"

/-- The entry `logRequest` builds for a request received at `now` (lines 80-130). -/
def logEntry (lib : Lib) (now : Time) (req : Request) : String :=
  sprintfEntry (formatTime now) req.method req.url
    (formatHeaders lib (flattenHeaders req.header)) (formatBody lib req.body)

/-! ## Handlers -/

/-- Source function `logRequest`: the store after the call and the response context. -/
def logRequest (lib : Lib) (rest : Ctx → Ctx) (flt : Faults) (now : Time) (req : Request)
    (st : Store) (c : Ctx) : Store × Ctx :=
  match ensureLogDir flt st with
  | Option.none => (st, c.JSON 500 "error" "Failed to create log directory")
  | some st1 =>
    if flt.readAll then (st1, c.JSON 500 "error" "Failed to read request body")
    else
      match appendEntry lib flt (formatDate now) (logEntry lib now req) st1 with
      | (st2, some msg) => (st2, c.JSON 500 "error" msg)
      | (st2, Option.none) => (st2, c.next rest)

/-- Source function `getLogHandler`. -/
def getLogHandler (lib : Lib) (flt : Faults) (st : Store) (req : Request) (c : Ctx) : Ctx :=
  let date := req.date.getD ""
  if date = "" then c.JSON 400 "error" "Date parameter is required"
  else if (parseDate date).isNone then c.JSON 400 "error" "Invalid date format, use YYYY-MM-DD"
  else
    match st.files (getLogFilePath lib date) with
    | Option.none => c.JSON 404 "error" "Log file not found for the specified date"
    | some logContent =>
      if flt.readFile then c.JSON 500 "error" "Failed to read log file"
      else c.String 200 logContent

/-- The middleware `main` installs with `r.Use`: the retrieval path is passed
on, every other request is logged and then answered with `{"status":"OK"}`. -/
def middleware (lib : Lib) (rest : Ctx → Ctx) (flt : Faults) (now : Time) (req : Request)
    (st : Store) (c : Ctx) : Store × Ctx :=
  if req.path = "/api/v1/log" then (st, c.next rest)
  else
    match logRequest lib rest flt now req st c with
    | (st1, c1) => (st1, c1.JSON 200 "status" "OK")

/-- One request through the handler chain: the middleware, then the handlers
after it when the middleware did not run them itself. -/
def serve (lib : Lib) (rest : Ctx → Ctx) (flt : Faults) (now : Time) (req : Request)
    (st : Store) (c : Ctx) : Store × Ctx :=
  match middleware lib rest flt now req st c with
  | (st1, c1) => (st1, c1.next rest)

/-! ## Sample data for the instances below -/

/-- A case table that leaves every rune outside ASCII as it is; the sample keys
are ASCII, for which the table is not consulted. -/
def plainTable : Char → Char := fun r => r

/-- The record `{"user": "a", "PassWord": "x", "token": {"id": "7"},
"profile": {"apikey": "k", "name": "n"}}`. -/
def sampleRecord : JMap :=
  .cons "user" (.str "a")
    (.cons "PassWord" (.str "x")
      (.cons "token" (.obj (.cons "id" (.str "7") .nil))
        (.cons "profile" (.obj (.cons "apikey" (.str "k") (.cons "name" (.str "n") .nil)))
          .nil)))

/-- The record `{"user": "a", "password": "p"}`. -/
def recLogin : JMap := .cons "user" (.str "a") (.cons "password" (.str "p") .nil)

/-- The record `{"user": "a", "password": "q"}`. -/
def recLoginOther : JMap := .cons "user" (.str "a") (.cons "password" (.str "q") .nil)

/-- The record `{"items": [{"password": "hunter2"}]}`. -/
def recItems : JMap :=
  .cons "items" (.arr (.cons (.obj (.cons "password" (.str "hunter2") .nil)) .nil)) .nil

/-- The request body `{"user":"a","password":"p"}`. -/
def bodyLogin : String := "\x7b\"user\":\"a\",\"password\":\"p\"\x7d"

/-- The request body `{"user":"a","password":"q"}`. -/
def bodyLoginOther : String := "\x7b\"user\":\"a\",\"password\":\"q\"\x7d"

/-- The request body `{"items":[{"password":"hunter2"}]}`. -/
def bodyItems : String := "\x7b\"items\":[\x7b\"password\":\"hunter2\"\x7d]\x7d"

/-- The lines `  "name": "value"` of an indented string map, separated by commas. -/
def renderPairs : List (String × String) → String
  | [] => ""
  | [(k, v)] => "  \"" ++ k ++ "\": \"" ++ v ++ "\""
  | (k, v) :: rest => "  \"" ++ k ++ "\": \"" ++ v ++ "\",\n" ++ renderPairs rest

/-- The entries `name:value` of a string map printed with `%v`. -/
def renderPlain : List (String × String) → String
  | [] => ""
  | [(k, v)] => k ++ ":" ++ v
  | (k, v) :: rest => k ++ ":" ++ v ++ " " ++ renderPlain rest

/-- Library results on the sample inputs: `json.Unmarshal` on the three sample
bodies (anything else is taken as text that is not JSON), `json.MarshalIndent`
on the two records they are filtered to, the indented rendering of a header
map given in key order whose texts need no escaping, and `filepath.Join` of two
clean elements. -/
def sampleLib : Lib where
  lowerTable := plainTable
  jsonUnmarshal := fun s =>
    if s = bodyLogin then .ok recLogin
    else if s = bodyLoginOther then .ok recLoginOther
    else if s = bodyItems then .ok recItems
    else .error .malformed
  marshalIndentBody := fun m =>
    if m = .cons "user" (.str "a") (.cons "password" (.str "[REDACTED]") .nil) then
      some "\x7b\n  \"password\": \"[REDACTED]\",\n  \"user\": \"a\"\n\x7d"
    else if m = recItems then
      some "\x7b\n  \"items\": [\n    \x7b\n      \"password\": \"hunter2\"\n    \x7d\n  ]\n\x7d"
    else Option.none
  marshalIndentHeaders := fun h =>
    match h with
    | [] => some "\x7b\x7d"
    | _ => some ("\x7b\n" ++ renderPairs h ++ "\n\x7d")
  sprintV := fun h => "map[" ++ renderPlain h ++ "]"
  filepathJoin := fun dir file => dir ++ "/" ++ file

/-- A sample arrival time, 2024-01-15 09:30:05. -/
def sampleTime : Time :=
  { year := 2024, month := 1, day := 15, hour := 9, minute := 30, second := 5 }

/-- A sample request `POST /orders` with header `X-Api-Key` and a body. -/
def sampleRequest (apiKey body : String) : Request :=
  { method := "POST", url := "/orders", path := "/orders",
    header := [("Content-Type", ["application/json"]), ("X-Api-Key", [apiKey])],
    body := body, date := Option.none }

/-- A text made of the given lines, each ended by a newline. -/
def unlines : List String → String
  | [] => ""
  | l :: ls => l ++ "\n" ++ unlines ls

/-- The entry in the words of the specification: the lines `#---`, `time: T`,
`M U`, the header block, one empty line, the body block and the closing `---`,
followed by a trailing blank line. -/
def entryWithBlankLine (T M U H B : String) : String :=
  unlines ["#---", "time: " ++ T, M ++ " " ++ U, H, "", B, "---", ""]

/-- Two records with the same keys in the same order whose values differ at
most under keys that match the sensitive-key rule, at any depth of nested
records. -/
def agreeOutsideSensitive (tbl : Char → Char) : JMap → JMap → Bool
  | .nil, .nil => true
  | .cons k v rest, .cons k' v' rest' =>
    (k == k') &&
      (isSensitive tbl k ||
        (match v, v' with
          | .obj m, .obj m' => agreeOutsideSensitive tbl m m'
          | a, b => a == b)) &&
      agreeOutsideSensitive tbl rest rest'
  | _, _ => false

/-- A store without the directory `logs`. -/
def emptyStore : Store := { dirExists := false, files := fun _ => Option.none }

/-- A store with the directory `logs` holding one entry for 2024-01-15. -/
def sampleStore : Store :=
  { dirExists := true,
    files := fun p =>
      if p = "logs/log_2024-01-15.log" then some "#---\nearlier entry\n---\n" else Option.none }

/-- A retrieval request `GET /api/v1/log` with the given `date` parameter. -/
def retrieval (date : Option String) : Request :=
  { method := "GET", url := "/api/v1/log", path := "/api/v1/log", header := [], body := "",
    date := date }

/-- Only `os.MkdirAll` fails. -/
def mkdirFails : Faults := { Faults.none with mkdirAll := true }

/-- Only `io.ReadAll` fails. -/
def readAllFails : Faults := { Faults.none with readAll := true }

/-- Only `os.OpenFile` fails. -/
def openFails : Faults := { Faults.none with openFile := true }

/-- Only `WriteString` fails, before any character went out. -/
def writeFails : Faults := { Faults.none with writeString := some 0 }

/-- Only `os.ReadFile` fails. -/
def readFileFails : Faults := { Faults.none with readFile := true }

/-! ## Properties of the redactor -/

theorem containsChars_iff (s sub : List Char) : containsChars s sub = true ↔ sub <:+: s := by
  induction s with
  | nil =>
    unfold containsChars
    cases sub <;> simp [List.isPrefixOf]
  | cons a t ih =>
    unfold containsChars
    simp only [Bool.or_eq_true, ih, List.infix_cons_iff, List.isPrefixOf_iff_prefix]

theorem isSensitive_iff (tbl : Char → Char) (k : String) :
    isSensitive tbl k = true ↔ SensitiveKeyRule tbl k := by
  unfold isSensitive SensitiveKeyRule
  simp only [List.any_eq_true, Bool.or_eq_true, beq_iff_eq, contains, containsChars_iff]

theorem isSensitive_eq_false (tbl : Char → Char) (k : String) (hs : ¬ SensitiveKeyRule tbl k) :
    isSensitive tbl k = false := by
  cases h : isSensitive tbl k
  · rfl
  · exact absurd ((isSensitive_iff tbl k).1 h) hs

theorem filterSensitiveData_cons (tbl : Char → Char) (k : String) (v : JValue) (rest : JMap) :
    filterSensitiveData tbl (.cons k v rest) =
      .cons k (redactValue tbl k v) (filterSensitiveData tbl rest) := by
  cases v <;> rfl

theorem keys_filterSensitiveData (tbl : Char → Char) :
    ∀ R : JMap, (filterSensitiveData tbl R).keys = R.keys
  | .nil => rfl
  | .cons k v rest => by
    rw [filterSensitiveData_cons]
    simp only [JMap.keys, keys_filterSensitiveData tbl rest]

theorem lookup_filterSensitiveData (tbl : Char → Char) (k : String) :
    ∀ R : JMap, (filterSensitiveData tbl R).lookup k = (R.lookup k).map (redactValue tbl k)
  | .nil => rfl
  | .cons k' v rest => by
    rw [filterSensitiveData_cons]
    simp only [JMap.lookup]
    by_cases h : k' = k
    · subst h; simp
    · simp [h, lookup_filterSensitiveData tbl k rest]

theorem redactValue_idem (tbl : Char → Char) (k : String) (v : JValue)
    (ih : ∀ m, v = .obj m →
      filterSensitiveData tbl (filterSensitiveData tbl m) = filterSensitiveData tbl m) :
    redactValue tbl k (redactValue tbl k v) = redactValue tbl k v := by
  unfold redactValue
  by_cases hs : isSensitive tbl k = true
  · simp [hs]
  · cases v with
    | obj m => simp [hs, ih m rfl]
    | _ => simp [hs]

theorem recordBindings_cons (key k : String) (v : JValue) (rest : JMap) :
    (JMap.cons k v rest).recordBindings key =
      (if k = key then [v] else []) ++
        (match v with
          | .obj m => m.recordBindings key
          | _ => []) ++ rest.recordBindings key := by
  cases v <;> rfl

/-- In a filtered record every binding of a sensitive key that is reached through
nested records holds the marker. -/
theorem recordBindings_filterSensitiveData (tbl : Char → Char) (key : String)
    (hkey : isSensitive tbl key = true) :
    ∀ (R : JMap) (v : JValue),
      v ∈ (filterSensitiveData tbl R).recordBindings key → v = redacted
  | .nil, v, h => by simp [filterSensitiveData, JMap.recordBindings] at h
  | .cons k w rest, v, h => by
    rw [filterSensitiveData_cons, recordBindings_cons] at h
    simp only [List.mem_append] at h
    rcases h with (h | h) | h
    · by_cases hk : k = key
      · subst hk
        simp [redactValue, hkey] at h
        exact h
      · simp [hk] at h
    · by_cases hs : isSensitive tbl k = true
      · simp [redactValue, hs, redacted] at h
      · cases w with
        | obj m =>
          simp [redactValue, hs] at h
          exact recordBindings_filterSensitiveData tbl key hkey m v h
        | _ => simp [redactValue, hs] at h
    · exact recordBindings_filterSensitiveData tbl key hkey rest v h

theorem agreeOutsideSensitive_cons (tbl : Char → Char) (k k' : String) (v v' : JValue)
    (rest rest' : JMap) :
    agreeOutsideSensitive tbl (.cons k v rest) (.cons k' v' rest') =
      ((k == k') &&
        (isSensitive tbl k ||
          (match v, v' with
            | .obj m, .obj m' => agreeOutsideSensitive tbl m m'
            | a, b => a == b)) &&
        agreeOutsideSensitive tbl rest rest') := by
  cases v <;> cases v' <;> rfl

/-- Records that differ at most under sensitive keys are filtered to the same record. -/
theorem filterSensitiveData_eq_of_agree (tbl : Char → Char) :
    ∀ R1 R2 : JMap, agreeOutsideSensitive tbl R1 R2 = true →
      filterSensitiveData tbl R1 = filterSensitiveData tbl R2
  | .nil, .nil, _ => rfl
  | .nil, .cons _ _ _, h => by simp [agreeOutsideSensitive] at h
  | .cons _ _ _, .nil, h => by simp [agreeOutsideSensitive] at h
  | .cons k v rest, .cons k' v' rest', h => by
    rw [agreeOutsideSensitive_cons] at h
    simp only [Bool.and_eq_true, Bool.or_eq_true, beq_iff_eq] at h
    obtain ⟨⟨hk, hv⟩, hr⟩ := h
    subst hk
    rw [filterSensitiveData_cons, filterSensitiveData_cons,
      filterSensitiveData_eq_of_agree tbl rest rest' hr]
    congr 1
    by_cases hs : isSensitive tbl k = true
    · simp [redactValue, hs]
    · rcases hv with hv | hv
      · exact absurd hv hs
      · cases v <;> cases v' <;> simp [redactValue, hs] at hv ⊢ <;> try exact hv
        exact filterSensitiveData_eq_of_agree tbl _ _ hv

/-- C1: `filterSensitiveData R` has exactly the keys of `R`, and for a key `k` of `R`
with value `v`: when the lower-cased `k` equals or contains one of the listed
words the result holds `"[REDACTED]"` at `k`; otherwise it holds
`filterSensitiveData v` when `v` is a nested record and `v` itself when it is
not. `"PassWord"`, `"monkey"` and `"keyboard"` match the rule. -/
theorem filterSensitiveData_contract (tbl : Char → Char) (R : JMap) (k : String) (v : JValue)
    (hk : R.lookup k = some v) :
    (filterSensitiveData tbl R).keys = R.keys ∧
    (SensitiveKeyRule tbl k →
      (filterSensitiveData tbl R).lookup k = some (.str "[REDACTED]")) ∧
    (¬ SensitiveKeyRule tbl k →
      (∀ m, v = .obj m →
        (filterSensitiveData tbl R).lookup k = some (.obj (filterSensitiveData tbl m))) ∧
      ((∀ m, v ≠ .obj m) → (filterSensitiveData tbl R).lookup k = some v)) ∧
    SensitiveKeyRule tbl "PassWord" ∧ SensitiveKeyRule tbl "monkey" ∧
      SensitiveKeyRule tbl "keyboard" := by
  refine ⟨keys_filterSensitiveData tbl R, ?_, ?_, ?_, ?_, ?_⟩
  · intro hs
    rw [lookup_filterSensitiveData, hk]
    simp [redactValue, (isSensitive_iff tbl k).2 hs, redacted]
  · intro hs
    have hb := isSensitive_eq_false tbl k hs
    constructor
    · intro m hm
      subst hm
      rw [lookup_filterSensitiveData, hk]
      simp [redactValue, hb]
    · intro hv
      rw [lookup_filterSensitiveData, hk]
      cases v with
      | obj m => exact absurd rfl (hv m)
      | _ => simp [redactValue, hb]
  · exact (isSensitive_iff tbl _).1 rfl
  · exact (isSensitive_iff tbl _).1 rfl
  · exact (isSensitive_iff tbl _).1 rfl

/-- C1, instance: in the sample record the key `PassWord` (value `"x"`) matches the
rule and is redacted, the key `profile` does not and its record is filtered,
the key `user` does not and its text is kept. -/
theorem filterSensitiveData_contract_witness :
    sampleRecord.lookup "PassWord" = some (.str "x") ∧
    (filterSensitiveData plainTable sampleRecord).keys =
      ["user", "PassWord", "token", "profile"] ∧
    (filterSensitiveData plainTable sampleRecord).lookup "PassWord" = some (.str "[REDACTED]") ∧
    (filterSensitiveData plainTable sampleRecord).lookup "profile" =
      some (.obj (.cons "apikey" (.str "[REDACTED]") (.cons "name" (.str "n") .nil))) ∧
    (filterSensitiveData plainTable sampleRecord).lookup "user" = some (.str "a") :=
  ⟨by decide,
   (filterSensitiveData_contract plainTable sampleRecord "PassWord" (.str "x") (by decide)).1,
   (filterSensitiveData_contract plainTable sampleRecord "PassWord" (.str "x") (by decide)).2.1
     ((isSensitive_iff plainTable "PassWord").1 (by decide)),
   ((filterSensitiveData_contract plainTable sampleRecord "profile"
      (.obj (.cons "apikey" (.str "k") (.cons "name" (.str "n") .nil))) (by decide)).2.2.1
      (fun h => absurd ((isSensitive_iff plainTable "profile").2 h) (by decide))).1 _ rfl,
   ((filterSensitiveData_contract plainTable sampleRecord "user" (.str "a") (by decide)).2.2.1
      (fun h => absurd ((isSensitive_iff plainTable "user").2 h) (by decide))).2
      (fun m h => by cases h)⟩

/-- C2, as stated, fails: in the sample record the key `token` holds a nested
record, and the result holds the marker there, not a record. -/
theorem nested_record_replaced_counterexample :
    sampleRecord.lookup "token" = some (.obj (.cons "id" (.str "7") .nil)) ∧
    (filterSensitiveData plainTable sampleRecord).lookup "token" = some (.str "[REDACTED]") ∧
    ¬ ∃ m, (filterSensitiveData plainTable sampleRecord).lookup "token" = some (.obj m) := by
  refine ⟨by decide, by decide, ?_⟩
  rintro ⟨m, hm⟩
  have h : (filterSensitiveData plainTable sampleRecord).lookup "token" =
      some (.str "[REDACTED]") := by decide
  rw [h] at hm
  cases hm

/-- C2, amended: for a key `k` of `R` that does not match the sensitive-key rule and
whose value is a nested record `m`, the result holds at `k` the record
`filterSensitiveData m`, which has the keys of `m`, and not the marker; the keys
of the result are those of `R`. -/
theorem nested_record_kept (tbl : Char → Char) (R : JMap) (k : String) (m : JMap)
    (hk : R.lookup k = some (.obj m)) (hs : ¬ SensitiveKeyRule tbl k) :
    (filterSensitiveData tbl R).lookup k = some (.obj (filterSensitiveData tbl m)) ∧
    (filterSensitiveData tbl R).lookup k ≠ some (.str "[REDACTED]") ∧
    (filterSensitiveData tbl m).keys = m.keys ∧
    (filterSensitiveData tbl R).keys = R.keys := by
  have hb := isSensitive_eq_false tbl k hs
  have h1 : (filterSensitiveData tbl R).lookup k = some (.obj (filterSensitiveData tbl m)) := by
    rw [lookup_filterSensitiveData, hk]
    simp [redactValue, hb]
  refine ⟨h1, ?_, keys_filterSensitiveData tbl m, keys_filterSensitiveData tbl R⟩
  rw [h1]
  intro h
  cases h

/-- C2 amended, instance: the key `profile` of the sample record is not sensitive
and its nested record is filtered in place. -/
theorem nested_record_kept_witness :
    sampleRecord.lookup "profile" =
      some (.obj (.cons "apikey" (.str "k") (.cons "name" (.str "n") .nil))) ∧
    (filterSensitiveData plainTable sampleRecord).lookup "profile" =
      some (.obj (.cons "apikey" (.str "[REDACTED]") (.cons "name" (.str "n") .nil))) :=
  ⟨by decide,
   (nested_record_kept plainTable sampleRecord "profile"
      (.cons "apikey" (.str "k") (.cons "name" (.str "n") .nil)) (by decide)
      (fun h => absurd ((isSensitive_iff plainTable "profile").2 h) (by decide))).1⟩

/-- C10: redaction is idempotent, `filterSensitiveData (filterSensitiveData R) =
filterSensitiveData R` for every record `R`. -/
theorem filterSensitiveData_idempotent (tbl : Char → Char) (R : JMap) :
    filterSensitiveData tbl (filterSensitiveData tbl R) = filterSensitiveData tbl R := by
  apply @JMap.rec
    (fun v => ∀ m, v = JValue.obj m →
      filterSensitiveData tbl (filterSensitiveData tbl m) = filterSensitiveData tbl m)
    (fun _ => True)
    (fun R => filterSensitiveData tbl (filterSensitiveData tbl R) = filterSensitiveData tbl R)
  · intro m h; cases h
  · intro b m h; cases h
  · intro bits m h; cases h
  · intro s m h; cases h
  · intro xs _ m h; cases h
  · intro m ih m' h
    cases h
    exact ih
  · trivial
  · intro v rest _ _
    trivial
  · rfl
  · intro k v rest ihv ihrest
    rw [filterSensitiveData_cons, filterSensitiveData_cons, ihrest, redactValue_idem tbl k v ihv]

/-! ## Properties of the entry formatter -/

theorem formatBody_ok (lib : Lib) (body : String) (R : JMap) (text : String)
    (hne : 0 < body.length) (hR : lib.jsonUnmarshal body = .ok R)
    (ht : lib.marshalIndentBody (filterSensitiveData lib.lowerTable R) = some text) :
    formatBody lib body = text := by
  simp [formatBody, hne, hR, ht]

theorem formatBody_error (lib : Lib) (body : String) (e : JsonError)
    (hne : 0 < body.length) (herr : lib.jsonUnmarshal body = .error e) :
    formatBody lib body = body := by
  simp [formatBody, hne, herr]

theorem mem_flattenHeaders (name v : String) (vs : List String) :
    ∀ header : List (String × List String),
      (name, v :: vs) ∈ header → (name, v) ∈ flattenHeaders header
  | [], h => by cases h
  | (key, values) :: rest, h => by
    rcases List.mem_cons.1 h with heq | htl
    · cases heq
      simp [flattenHeaders]
    · cases values with
      | nil => simpa [flattenHeaders] using mem_flattenHeaders name v vs rest htl
      | cons w ws => simp [flattenHeaders, mem_flattenHeaders name v vs rest htl]

theorem appendInt_two (x : Nat) (h : x < 100) :
    appendInt x 2 = [digitChar (x / 10), digitChar x] := by
  have h0 : x / 10 / 10 = 0 := by omega
  simp only [appendInt]
  rw [h0]
  simp

theorem appendInt_four (x : Nat) (h : x < 10000) :
    appendInt x 4 =
      [digitChar (x / 1000), digitChar (x / 100), digitChar (x / 10), digitChar x] := by
  have h0 : x / 10 / 10 / 10 / 10 = 0 := by omega
  have h1 : x / 10 / 10 / 10 = x / 1000 := by omega
  have h2 : x / 10 / 10 = x / 100 := by omega
  simp only [appendInt]
  rw [h0, h1, h2]
  simp

theorem sprintfEntry_lines (T M U H B : String) :
    sprintfEntry T M U H B =
      unlines ["#---", "time: " ++ T, M ++ " " ++ U, H, "", B, "---"] := by
  apply String.ext
  simp [sprintfEntry, unlines, String.data_append]

theorem entryWithBlankLine_eq (T M U H B : String) :
    entryWithBlankLine T M U H B = sprintfEntry T M U H B ++ "\n" := by
  apply String.ext
  simp [entryWithBlankLine, sprintfEntry, unlines, String.data_append]

theorem ne_append_newline (s : String) : s ≠ s ++ "\n" := by
  intro h
  have hl := congrArg String.length h
  rw [String.length_append] at hl
  have h1 : "\n".length = 1 := rfl
  omega

/-- C3, as stated, fails: the sample body `{"items":[{"password":"hunter2"}]}`
decodes to a record in which the key `password` occurs inside an array; the
filter leaves that binding as it is and the body block shows `hunter2`. -/
theorem password_in_array_counterexample :
    sampleLib.jsonUnmarshal bodyItems = .ok recItems ∧
    (JValue.obj recItems).bindings "password" = [.str "hunter2"] ∧
    (JValue.obj (filterSensitiveData sampleLib.lowerTable recItems)).bindings "password" =
      [.str "hunter2"] ∧
    formatBody sampleLib bodyItems =
      "\x7b\n  \"items\": [\n    \x7b\n      \"password\": \"hunter2\"\n    \x7d\n  ]\n\x7d" ∧
    contains (logEntry sampleLib sampleTime (sampleRequest "k-live-1" bodyItems)) "hunter2" =
      true := by
  refine ⟨rfl, by decide, by decide, by decide, by decide⟩

/-- C3, amended: when the body decodes to a record `R` and the filtered record
renders, the body block is that rendering of `filterSensitiveData R`, in which
every binding of the key `password` at the top level or inside records nested
in records holds `"[REDACTED]"`; a top-level `password` of `R` is still a key of
the filtered record. Bindings inside arrays are not covered. -/
theorem password_redacted_in_body (lib : Lib) (body : String) (R : JMap) (text : String)
    (hne : 0 < body.length) (hR : lib.jsonUnmarshal body = .ok R)
    (ht : lib.marshalIndentBody (filterSensitiveData lib.lowerTable R) = some text) :
    formatBody lib body = text ∧
    (∀ v ∈ (filterSensitiveData lib.lowerTable R).recordBindings "password",
      v = .str "[REDACTED]") ∧
    (∀ v, R.lookup "password" = some v →
      (filterSensitiveData lib.lowerTable R).lookup "password" = some (.str "[REDACTED]")) := by
  have hs : isSensitive lib.lowerTable "password" = true := rfl
  refine ⟨formatBody_ok lib body R text hne hR ht, ?_, ?_⟩
  · intro v hv
    exact recordBindings_filterSensitiveData lib.lowerTable "password" hs R v hv
  · intro v hv
    rw [lookup_filterSensitiveData, hv]
    simp [redactValue, hs, redacted]

/-- C3 amended, instance: the sample body `{"user":"a","password":"p"}`. -/
theorem password_redacted_in_body_witness :
    0 < bodyLogin.length ∧ sampleLib.jsonUnmarshal bodyLogin = .ok recLogin ∧
    formatBody sampleLib bodyLogin =
      "\x7b\n  \"password\": \"[REDACTED]\",\n  \"user\": \"a\"\n\x7d" ∧
    (filterSensitiveData sampleLib.lowerTable recLogin).lookup "password" =
      some (.str "[REDACTED]") :=
  ⟨by decide, rfl,
   (password_redacted_in_body sampleLib bodyLogin recLogin
      "\x7b\n  \"password\": \"[REDACTED]\",\n  \"user\": \"a\"\n\x7d"
      (by decide) rfl (by decide)).1,
   (password_redacted_in_body sampleLib bodyLogin recLogin
      "\x7b\n  \"password\": \"[REDACTED]\",\n  \"user\": \"a\"\n\x7d"
      (by decide) rfl (by decide)).2.2 (.str "p") (by decide)⟩

/-- C4, as stated, fails: two requests that differ only in the value of the header
`X-Api-Key`, a name that matches the sensitive-key rule, produce different
entries, and the value is part of the entry. -/
theorem header_value_logged_counterexample :
    isSensitive sampleLib.lowerTable "X-Api-Key" = true ∧
    logEntry sampleLib sampleTime (sampleRequest "k-live-1" bodyLogin) ≠
      logEntry sampleLib sampleTime (sampleRequest "k-live-2" bodyLogin) ∧
    contains (logEntry sampleLib sampleTime (sampleRequest "k-live-1" bodyLogin)) "k-live-1" =
      true := by
  refine ⟨by decide, by decide, by decide⟩

/-- C4, amended: redaction covers the decoded body only. The header block is the
rendering of the flattened headers, which hold the first value of every header
whatever its name; two requests with the same method, URL and flattened headers
whose bodies decode to records that differ at most under sensitive keys (at any
depth of nested records), the filtered record rendering without error, produce
the same log entry. -/
theorem redaction_covers_body_only (lib : Lib) (now : Time) (r1 r2 : Request) (R1 R2 : JMap)
    (hm : r1.method = r2.method) (hu : r1.url = r2.url)
    (hh : flattenHeaders r1.header = flattenHeaders r2.header)
    (hne1 : 0 < r1.body.length) (hne2 : 0 < r2.body.length)
    (h1 : lib.jsonUnmarshal r1.body = .ok R1) (h2 : lib.jsonUnmarshal r2.body = .ok R2)
    (hag : agreeOutsideSensitive lib.lowerTable R1 R2 = true)
    (hren : lib.marshalIndentBody (filterSensitiveData lib.lowerTable R1) ≠ Option.none) :
    logEntry lib now r1 = logEntry lib now r2 ∧
    (∀ name v vs, (name, v :: vs) ∈ r1.header → (name, v) ∈ flattenHeaders r1.header) ∧
    logEntry lib now r1 =
      sprintfEntry (formatTime now) r1.method r1.url
        (formatHeaders lib (flattenHeaders r1.header)) (formatBody lib r1.body) := by
  obtain ⟨text, ht⟩ := Option.ne_none_iff_exists'.1 hren
  have hf := filterSensitiveData_eq_of_agree lib.lowerTable R1 R2 hag
  have hb1 := formatBody_ok lib r1.body R1 text hne1 h1 ht
  have hb2 := formatBody_ok lib r2.body R2 text hne2 h2 (hf ▸ ht)
  refine ⟨?_, ?_, rfl⟩
  · simp only [logEntry, hm, hu, hh, hb1, hb2]
  · intro name v vs hmem
    exact mem_flattenHeaders name v vs r1.header hmem

/-- C4 amended, instance: the two sample login bodies differ in the password only. -/
theorem redaction_covers_body_only_witness :
    agreeOutsideSensitive sampleLib.lowerTable recLogin recLoginOther = true ∧
    (sampleRequest "k" bodyLogin).body ≠ (sampleRequest "k" bodyLoginOther).body ∧
    logEntry sampleLib sampleTime (sampleRequest "k" bodyLogin) =
      logEntry sampleLib sampleTime (sampleRequest "k" bodyLoginOther) :=
  ⟨by decide, by decide,
   (redaction_covers_body_only sampleLib sampleTime (sampleRequest "k" bodyLogin)
      (sampleRequest "k" bodyLoginOther) recLogin recLoginOther rfl rfl rfl
      (by decide) (by decide) rfl rfl (by decide) (by decide)).1⟩

/-- C5: for a body that is not empty and that `json.Unmarshal` rejects (text that
is not JSON in particular), the body block is the body itself, and the entry
carries it between the empty line and the closing `---`. -/
theorem raw_body_logged (lib : Lib) (now : Time) (req : Request) (e : JsonError)
    (hne : 0 < req.body.length) (herr : lib.jsonUnmarshal req.body = .error e) :
    formatBody lib req.body = req.body ∧
    logEntry lib now req =
      sprintfEntry (formatTime now) req.method req.url
        (formatHeaders lib (flattenHeaders req.header)) req.body := by
  have hb := formatBody_error lib req.body e hne herr
  refine ⟨hb, ?_⟩
  simp only [logEntry, hb]

/-- C5, instance: a form-encoded body is logged as it is, password included. -/
theorem raw_body_logged_witness :
    sampleLib.jsonUnmarshal "user=a&password=p" = .error .malformed ∧
    formatBody sampleLib (sampleRequest "k" "user=a&password=p").body = "user=a&password=p" :=
  ⟨rfl,
   (raw_body_logged sampleLib sampleTime (sampleRequest "k" "user=a&password=p") .malformed
      (by decide) rfl).1⟩

/-- C6, as stated, fails: the entry of the sample request ends in the closing line
`---` and its newline, with no blank line after it. It differs from the text
with a trailing blank line, which is one newline longer, and two entries
written one after the other abut as `---`, newline, `#---`. -/
theorem trailing_blank_line_counterexample :
    logEntry sampleLib sampleTime (sampleRequest "k" "") =
      "#---\ntime: 2024-01-15 09:30:05\nPOST /orders\n\x7b\n  \"Content-Type\": \"application/json\",\n  \"X-Api-Key\": \"k\"\n\x7d\n\n\n---\n" ∧
    entryWithBlankLine (formatTime sampleTime) "POST" "/orders"
        (formatHeaders sampleLib (flattenHeaders (sampleRequest "k" "").header))
        (formatBody sampleLib "") =
      "#---\ntime: 2024-01-15 09:30:05\nPOST /orders\n\x7b\n  \"Content-Type\": \"application/json\",\n  \"X-Api-Key\": \"k\"\n\x7d\n\n\n---\n\n" ∧
    logEntry sampleLib sampleTime (sampleRequest "k" "") ≠
      entryWithBlankLine (formatTime sampleTime) "POST" "/orders"
        (formatHeaders sampleLib (flattenHeaders (sampleRequest "k" "").header))
        (formatBody sampleLib "") ∧
    contains (logEntry sampleLib sampleTime (sampleRequest "k" "") ++
        logEntry sampleLib sampleTime (sampleRequest "k" "")) "---\n#---" = true ∧
    contains (logEntry sampleLib sampleTime (sampleRequest "k" "") ++
        logEntry sampleLib sampleTime (sampleRequest "k" "")) "---\n\n#---" = false := by
  refine ⟨by decide, by decide, by decide, by decide, by decide⟩

/-- C6, amended: the entry is exactly the lines `#---`, `time: T`, `M U`, the header
block, one empty line, the body block and the closing `---`, each ended by one
newline, so that it ends in `---` and a newline and no blank line follows: the
text with a trailing blank line is the entry plus one more newline and is never
the entry. `T` is `YYYY-MM-DD HH:MM:SS` for fields in range, and an empty body
gives an empty body block. -/
theorem logEntry_layout (lib : Lib) (now : Time) (req : Request) :
    logEntry lib now req =
      unlines ["#---", "time: " ++ formatTime now, req.method ++ " " ++ req.url,
        formatHeaders lib (flattenHeaders req.header), "", formatBody lib req.body, "---"] ∧
    (∀ T M U H B : String, sprintfEntry T M U H B =
      "#---\n" ++ ("time: " ++ T ++ "\n") ++ (M ++ " " ++ U ++ "\n") ++ (H ++ "\n") ++ "\n" ++
        (B ++ "\n") ++ "---\n") ∧
    (∀ T M U H B : String,
      entryWithBlankLine T M U H B = sprintfEntry T M U H B ++ "\n" ∧
      sprintfEntry T M U H B ≠ entryWithBlankLine T M U H B) ∧
    (req.body = "" → formatBody lib req.body = "") ∧
    (now.year < 10000 → now.month < 100 → now.day < 100 → now.hour < 100 →
      now.minute < 100 → now.second < 100 →
      formatTime now = String.mk
        [digitChar (now.year / 1000), digitChar (now.year / 100), digitChar (now.year / 10),
         digitChar now.year, '-', digitChar (now.month / 10), digitChar now.month, '-',
         digitChar (now.day / 10), digitChar now.day, ' ',
         digitChar (now.hour / 10), digitChar now.hour, ':',
         digitChar (now.minute / 10), digitChar now.minute, ':',
         digitChar (now.second / 10), digitChar now.second]) := by
  refine ⟨sprintfEntry_lines _ _ _ _ _, ?_, ?_, ?_, ?_⟩
  · intro T M U H B
    apply String.ext
    simp [sprintfEntry, String.data_append]
  · intro T M U H B
    refine ⟨entryWithBlankLine_eq T M U H B, ?_⟩
    rw [entryWithBlankLine_eq]
    exact ne_append_newline _
  · intro hb
    simp [formatBody, hb]
  · intro hy hmo hd hh hmi hs
    simp [formatTime, appendInt_four _ hy, appendInt_two _ hmo, appendInt_two _ hd,
      appendInt_two _ hh, appendInt_two _ hmi, appendInt_two _ hs]

/-- C6 amended, instance: the entry of a sample request without body at the sample
time. -/
theorem logEntry_layout_witness :
    (sampleRequest "k" "").body = "" ∧
    formatBody sampleLib (sampleRequest "k" "").body = "" ∧
    formatTime sampleTime = "2024-01-15 09:30:05" ∧
    logEntry sampleLib sampleTime (sampleRequest "k" "") =
      unlines ["#---", "time: 2024-01-15 09:30:05", "POST /orders",
        "\x7b\n  \"Content-Type\": \"application/json\",\n  \"X-Api-Key\": \"k\"\n\x7d",
        "", "", "---"] :=
  ⟨rfl, (logEntry_layout sampleLib sampleTime (sampleRequest "k" "")).2.2.2.1 rfl,
   (logEntry_layout sampleLib sampleTime (sampleRequest "k" "")).2.2.2.2
     (by decide) (by decide) (by decide) (by decide) (by decide) (by decide),
   by decide⟩

/-! ## Properties of the log store and of the retrieval handler -/

theorem parseDate_empty : parseDate "" = Option.none := rfl

theorem isDigit_digitChar (n : Nat) : isDigit (digitChar n) = true := by
  have h : n % 10 < 10 := Nat.mod_lt _ (by decide)
  unfold digitChar
  generalize n % 10 = r at h
  interval_cases r <;> decide

theorem digitVal_digitChar (n : Nat) : digitVal (digitChar n) = n % 10 := by
  have h : n % 10 < 10 := Nat.mod_lt _ (by decide)
  unfold digitChar
  generalize n % 10 = r at h
  interval_cases r <;> decide

/-- The date `logRequest` files an entry under is accepted by `getLogHandler`:
`time.Parse` reads back what `Format` printed for a calendar date. -/
theorem parseDate_formatDate (t : Time) (hy : t.year < 10000) (hm1 : 1 ≤ t.month)
    (hm2 : t.month ≤ 12) (hd1 : 1 ≤ t.day) (hd2 : t.day ≤ daysIn t.month t.year) :
    parseDate (formatDate t) = some (t.year, t.month, t.day) := by
  have hd3 : t.day < 100 := by
    have : daysIn t.month t.year ≤ 31 := by
      unfold daysIn
      split
      · omega
      · split <;> omega
    omega
  have hyv : (t.year / 1000) % 10 * 1000 + (t.year / 100) % 10 * 100 + (t.year / 10) % 10 * 10 +
      t.year % 10 = t.year := by omega
  have hmv : (t.month / 10) % 10 * 10 + t.month % 10 = t.month := by omega
  have hdv : (t.day / 10) % 10 * 10 + t.day % 10 = t.day := by omega
  have hm0 : ¬ (t.month = 0 ∨ 12 < t.month) := by omega
  have hd0 : ¬ (t.day < 1 ∨ daysIn t.month t.year < t.day) := by omega
  simp only [formatDate, appendInt_four _ hy, appendInt_two _ (show t.month < 100 by omega),
    appendInt_two _ hd3, parseDate, List.cons_append, List.nil_append, getnum2,
    isDigit_digitChar, digitVal_digitChar, Bool.and_self, if_true, hyv, hmv, hdv, hm0, hd0,
    if_false]

theorem ensureLogDir_files (flt : Faults) (st st1 : Store) (h : ensureLogDir flt st = some st1) :
    st1.files = st.files ∧ st1.dirExists = true := by
  unfold ensureLogDir at h
  by_cases hd : st.dirExists = true
  · simp [hd] at h
    subst h
    exact ⟨rfl, hd⟩
  · by_cases hm : flt.mkdirAll = true
    · simp [hd, hm] at h
    · simp [hd, hm] at h
      subst h
      exact ⟨rfl, rfl⟩

/-- A successful append puts the entry after the former text of the file of the
date and leaves every other file alone. -/
theorem files_after_append (lib : Lib) (flt : Faults) (D E : String) (st st' : Store)
    (happ : appendEntry lib flt D E st = (st', Option.none)) :
    st'.files (getLogFilePath lib D) = some ((st.files (getLogFilePath lib D)).getD "" ++ E) ∧
    ∀ p, p ≠ getLogFilePath lib D → st'.files p = st.files p := by
  unfold appendEntry openAppend writeString at happ
  by_cases ho : (flt.openFile || !st.dirExists) = true
  · simp [ho] at happ
  · cases hw : flt.writeString with
    | some n => simp [ho, hw] at happ
    | none =>
      simp [ho, hw] at happ
      subst happ
      constructor
      · simp
      · intro p hp
        simp [hp]

/-- The handler on a valid date whose file exists: the read decides. -/
theorem getLogHandler_found (lib : Lib) (flt : Faults) (st : Store) (req : Request)
    (D content : String) (hreq : req.date = some D) (hD : parseDate D ≠ Option.none)
    (hfile : st.files (getLogFilePath lib D) = some content) :
    getLogHandler lib flt st req Ctx.fresh =
      if flt.readFile then Ctx.fresh.JSON 500 "error" "Failed to read log file"
      else Ctx.fresh.String 200 content := by
  have hne : D ≠ "" := by
    intro h
    rw [h] at hD
    exact hD parseDate_empty
  have hp : (parseDate D).isNone = false := by
    cases h : parseDate D with
    | none => exact absurd h hD
    | some _ => rfl
  simp [getLogHandler, hreq, hne, hp, hfile]

theorem retrieve_after_append (lib : Lib) (flt flt' : Faults) (D E : String) (st st' : Store)
    (req : Request) (hD : parseDate D ≠ Option.none)
    (happ : appendEntry lib flt D E st = (st', Option.none))
    (hreq : req.date = some D) (hread : flt'.readFile = false) :
    getLogHandler lib flt' st' req Ctx.fresh =
      Ctx.fresh.String 200 ((st.files (getLogFilePath lib D)).getD "" ++ E) := by
  rw [getLogHandler_found lib flt' st' req D _ hreq hD
    (files_after_append lib flt D E st st' happ).1]
  simp [hread]

/-- C7, as stated, fails: after a successful append under the valid date
2024-01-15 a retrieval of that date whose `os.ReadFile` reports an error is
answered with status 500 and an error object, not with the text of the file. -/
theorem retrieval_read_failure_counterexample :
    parseDate "2024-01-15" ≠ Option.none ∧
    sampleStore.files (getLogFilePath sampleLib "2024-01-15") =
      some "#---\nearlier entry\n---\n" ∧
    (appendEntry sampleLib Faults.none "2024-01-15" "#---\nnew entry\n---\n" sampleStore).2 =
      Option.none ∧
    (getLogHandler sampleLib readFileFails
      (appendEntry sampleLib Faults.none "2024-01-15" "#---\nnew entry\n---\n" sampleStore).1
      (retrieval (some "2024-01-15")) Ctx.fresh).status = 500 ∧
    (getLogHandler sampleLib readFileFails
      (appendEntry sampleLib Faults.none "2024-01-15" "#---\nnew entry\n---\n" sampleStore).1
      (retrieval (some "2024-01-15")) Ctx.fresh).body =
        "\x7b\"error\":\"Failed to read log file\"\x7d" := by
  refine ⟨by decide, by decide, by decide, by decide, by decide⟩

/-- C7, amended: for a valid date `D`, an entry `E` and a store whose file for `D`
holds `P` (empty when there is no file yet), after a successful append of `E`
under `D` a retrieval of `D` whose file read does not fail returns status 200
with body `P` followed by `E`, and the append changed no other file. -/
theorem append_then_retrieve (lib : Lib) (flt flt' : Faults) (D E : String) (st st' : Store)
    (req : Request) (hD : parseDate D ≠ Option.none)
    (happ : appendEntry lib flt D E st = (st', Option.none))
    (hreq : req.date = some D) (hread : flt'.readFile = false) :
    (getLogHandler lib flt' st' req Ctx.fresh).status = 200 ∧
    (getLogHandler lib flt' st' req Ctx.fresh).body =
      (st.files (getLogFilePath lib D)).getD "" ++ E ∧
    (∀ p, p ≠ getLogFilePath lib D → st'.files p = st.files p) := by
  rw [retrieve_after_append lib flt flt' D E st st' req hD happ hreq hread]
  refine ⟨rfl, ?_, (files_after_append lib flt D E st st' happ).2⟩
  simp [Ctx.String, Ctx.write, Ctx.writeHeader, Ctx.fresh]

/-- C7 amended, instance: a second entry for 2024-01-15 is read back after the first. -/
theorem append_then_retrieve_witness :
    parseDate "2024-01-15" ≠ Option.none ∧
    (getLogHandler sampleLib Faults.none
      (appendEntry sampleLib Faults.none "2024-01-15" "#---\nnew entry\n---\n" sampleStore).1
      (retrieval (some "2024-01-15")) Ctx.fresh).body =
        "#---\nearlier entry\n---\n" ++ "#---\nnew entry\n---\n" :=
  ⟨by decide,
   (append_then_retrieve sampleLib Faults.none Faults.none "2024-01-15"
      "#---\nnew entry\n---\n" sampleStore
      (appendEntry sampleLib Faults.none "2024-01-15" "#---\nnew entry\n---\n" sampleStore).1
      (retrieval (some "2024-01-15")) (by decide) rfl rfl rfl).2.1⟩

/-- A request logged without failure at a calendar time `now` is read back by a
retrieval of `formatDate now` whose read does not fail: the response is 200 and
its body is the former text of the day's file followed by the entry of the
request. -/
theorem logged_request_retrievable (lib : Lib) (rest : Ctx → Ctx) (flt flt' : Faults)
    (now : Time) (req get : Request) (st st1 st2 : Store)
    (hy : now.year < 10000) (hm1 : 1 ≤ now.month) (hm2 : now.month ≤ 12) (hd1 : 1 ≤ now.day)
    (hd2 : now.day ≤ daysIn now.month now.year)
    (hdir : ensureLogDir flt st = some st1) (hbody : flt.readAll = false)
    (happ : appendEntry lib flt (formatDate now) (logEntry lib now req) st1 = (st2, Option.none))
    (hget : get.date = some (formatDate now)) (hread : flt'.readFile = false) :
    logRequest lib rest flt now req st Ctx.fresh = (st2, Ctx.fresh.next rest) ∧
    getLogHandler lib flt' st2 get Ctx.fresh =
      Ctx.fresh.String 200
        ((st.files (getLogFilePath lib (formatDate now))).getD "" ++ logEntry lib now req) := by
  have hD : parseDate (formatDate now) ≠ Option.none := by
    rw [parseDate_formatDate now hy hm1 hm2 hd1 hd2]
    simp
  refine ⟨?_, ?_⟩
  · simp [logRequest, hdir, hbody, happ]
  · rw [retrieve_after_append lib flt flt' _ _ st1 st2 get hD happ hget hread,
      (ensureLogDir_files flt st st1 hdir).1]

/-- C8: `getLogHandler` checks in this order: a `date` that is absent or empty gives
400 "Date parameter is required"; else a `date` that `time.Parse` rejects
(`2024-13-40` is one) gives 400 "Invalid date format, use YYYY-MM-DD"; else a
date without a file gives 404 "Log file not found for the specified date"; and
status 200 is only returned for a date that passed the three checks, with the
text of its file as body. -/
theorem getLogHandler_checks (lib : Lib) (flt : Faults) (st : Store) (req : Request) :
    ((req.date = Option.none ∨ req.date = some "") →
      (getLogHandler lib flt st req Ctx.fresh).status = 400 ∧
      (getLogHandler lib flt st req Ctx.fresh).body =
        "\x7b\"error\":\"Date parameter is required\"\x7d") ∧
    (∀ d, req.date = some d → d ≠ "" → parseDate d = Option.none →
      (getLogHandler lib flt st req Ctx.fresh).status = 400 ∧
      (getLogHandler lib flt st req Ctx.fresh).body =
        "\x7b\"error\":\"Invalid date format, use YYYY-MM-DD\"\x7d") ∧
    (∀ d, req.date = some d → d ≠ "" → parseDate d ≠ Option.none →
      st.files (getLogFilePath lib d) = Option.none →
      (getLogHandler lib flt st req Ctx.fresh).status = 404 ∧
      (getLogHandler lib flt st req Ctx.fresh).body =
        "\x7b\"error\":\"Log file not found for the specified date\"\x7d") ∧
    ((getLogHandler lib flt st req Ctx.fresh).status = 200 →
      ∃ d content, req.date = some d ∧ d ≠ "" ∧ parseDate d ≠ Option.none ∧
        st.files (getLogFilePath lib d) = some content ∧
        (getLogHandler lib flt st req Ctx.fresh).body = content) ∧
    parseDate "2024-13-40" = Option.none := by
  refine ⟨?_, ?_, ?_, ?_, rfl⟩
  · intro h
    have hd : req.date.getD "" = "" := by
      rcases h with h | h <;> simp [h]
    simp only [getLogHandler, hd]
    exact ⟨rfl, rfl⟩
  · intro d hreq hne hp
    simp only [getLogHandler, hreq, Option.getD_some, hne, hp]
    exact ⟨rfl, rfl⟩
  · intro d hreq hne hp hfile
    have hp' : (parseDate d).isNone = false := by
      cases h : parseDate d with
      | none => exact absurd h hp
      | some _ => rfl
    simp only [getLogHandler, hreq, Option.getD_some, hne, hp', hfile]
    exact ⟨rfl, rfl⟩
  · intro h200
    by_cases hd : req.date.getD "" = ""
    · simp [getLogHandler, hd, Ctx.JSON, Ctx.writeHeader, Ctx.write, Ctx.fresh] at h200
    · cases hdate : req.date with
      | none => simp [hdate] at hd
      | some d =>
        have hne : d ≠ "" := by simpa [hdate] using hd
        cases hp : parseDate d with
        | none =>
          simp [getLogHandler, hdate, hne, hp, Ctx.JSON, Ctx.writeHeader, Ctx.write,
            Ctx.fresh] at h200
        | some t =>
          cases hfile : st.files (getLogFilePath lib d) with
          | none =>
            simp [getLogHandler, hdate, hne, hp, hfile, Ctx.JSON, Ctx.writeHeader, Ctx.write,
              Ctx.fresh] at h200
          | some content =>
            cases hr : flt.readFile with
            | true =>
              simp [getLogHandler, hdate, hne, hp, hfile, hr, Ctx.JSON, Ctx.writeHeader,
                Ctx.write, Ctx.fresh] at h200
            | false =>
              refine ⟨d, content, rfl, hne, by simp [hp], hfile, ?_⟩
              simp [getLogHandler, hdate, hne, hp, hfile, hr, Ctx.String, Ctx.writeHeader,
                Ctx.write, Ctx.fresh]

/-- C8, instance: no date, the date `2024-13-40`, a date without file, and a date
with a file. -/
theorem getLogHandler_checks_witness :
    (getLogHandler sampleLib Faults.none sampleStore (retrieval Option.none) Ctx.fresh).status =
      400 ∧
    (getLogHandler sampleLib Faults.none sampleStore (retrieval (some "2024-13-40"))
      Ctx.fresh).body = "\x7b\"error\":\"Invalid date format, use YYYY-MM-DD\"\x7d" ∧
    (getLogHandler sampleLib Faults.none sampleStore (retrieval (some "2030-01-01"))
      Ctx.fresh).status = 404 ∧
    ∃ d content, (retrieval (some "2024-01-15")).date = some d ∧ d ≠ "" ∧
      parseDate d ≠ Option.none ∧
      sampleStore.files (getLogFilePath sampleLib d) = some content ∧
      (getLogHandler sampleLib Faults.none sampleStore (retrieval (some "2024-01-15"))
        Ctx.fresh).body = content :=
  ⟨((getLogHandler_checks sampleLib Faults.none sampleStore (retrieval Option.none)).1
      (Or.inl rfl)).1,
   ((getLogHandler_checks sampleLib Faults.none sampleStore (retrieval (some "2024-13-40"))).2.1
      "2024-13-40" rfl (by decide) rfl).2,
   ((getLogHandler_checks sampleLib Faults.none sampleStore (retrieval (some "2030-01-01"))).2.2.1
      "2030-01-01" rfl (by decide) (by decide) (by decide)).1,
   (getLogHandler_checks sampleLib Faults.none sampleStore
      (retrieval (some "2024-01-15"))).2.2.2.1 (by decide)⟩

/-! ## Properties of the middleware -/

/-- After a failure inside `logRequest` the middleware still writes its
acknowledgment: the status stays 500 and the body is the error object followed
by `{"status":"OK"}`; the handlers after the middleware have not been run by
it. -/
theorem middleware_of_failure (lib : Lib) (rest : Ctx → Ctx) (flt : Faults) (now : Time)
    (req : Request) (st : Store) (c : Ctx) (msg : String) (hpath : req.path ≠ "/api/v1/log")
    (hc : c.written = false)
    (h : (logRequest lib rest flt now req st c).2 = c.JSON 500 "error" msg) :
    (middleware lib rest flt now req st c).2.status = 500 ∧
    (middleware lib rest flt now req st c).2.body =
      c.body ++ ("\x7b\"error\":\"" ++ msg ++ "\"\x7d") ++ "\x7b\"status\":\"OK\"\x7d" ∧
    (middleware lib rest flt now req st c).2.chainDone = c.chainDone := by
  simp only [middleware, hpath, if_false, h]
  by_cases hs : c.status = 500
  · simp [Ctx.JSON, Ctx.writeHeader, Ctx.write, jsonH, hc, hs, String.append_assoc]
  · simp [Ctx.JSON, Ctx.writeHeader, Ctx.write, jsonH, hc, hs, String.append_assoc]

theorem appendEntry_message (lib : Lib) (flt : Faults) (D E : String) (st st' : Store)
    (msg : String) (h : appendEntry lib flt D E st = (st', some msg)) :
    msg = "Failed to open log file" ∨ msg = "Failed to write log entry" := by
  unfold appendEntry at h
  cases ho : openAppend flt (getLogFilePath lib D) st with
  | none =>
    simp [ho] at h
    exact Or.inl h.2.symm
  | some st1 =>
    rcases hw : writeString flt (getLogFilePath lib D) E st1 with ⟨st2, _ | _⟩
    · simp [ho, hw] at h
      exact Or.inr h.2.symm
    · simp [ho, hw] at h

/-- The failures of `logRequest`: each answers with status 500 and one error
object carrying one of four messages. -/
theorem logRequest_of_failure (lib : Lib) (rest : Ctx → Ctx) (flt : Faults) (now : Time)
    (req : Request) (st : Store) (c : Ctx)
    (hfail : ensureLogDir flt st = Option.none ∨ flt.readAll = true ∨
      ∃ st1, ensureLogDir flt st = some st1 ∧
        (appendEntry lib flt (formatDate now) (logEntry lib now req) st1).2 ≠ Option.none) :
    ∃ msg, (logRequest lib rest flt now req st c).2 = c.JSON 500 "error" msg ∧
      (msg = "Failed to create log directory" ∨ msg = "Failed to read request body" ∨
        msg = "Failed to open log file" ∨ msg = "Failed to write log entry") := by
  rcases hfail with h | h | ⟨st1, h1, h2⟩
  · exact ⟨"Failed to create log directory", by simp [logRequest, h], Or.inl rfl⟩
  · cases hd : ensureLogDir flt st with
    | none => exact ⟨"Failed to create log directory", by simp [logRequest, hd], Or.inl rfl⟩
    | some st1 =>
      exact ⟨"Failed to read request body", by simp [logRequest, hd, h], Or.inr (Or.inl rfl)⟩
  · cases hr : flt.readAll with
    | true =>
      exact ⟨"Failed to read request body", by simp [logRequest, h1, hr], Or.inr (Or.inl rfl)⟩
    | false =>
      rcases ha : appendEntry lib flt (formatDate now) (logEntry lib now req) st1 with
        ⟨st2, _ | msg⟩
      · rw [ha] at h2
        exact absurd rfl h2
      · refine ⟨msg, by simp [logRequest, h1, hr, ha], Or.inr (Or.inr ?_)⟩
        exact appendEntry_message lib flt _ _ st1 st2 msg ha

/-- After a failure the chain goes on, as nothing aborted it: the handlers after
the middleware are run on the response that already holds the error object and
the acknowledgment. -/
theorem serve_after_failure (lib : Lib) (rest : Ctx → Ctx) (flt : Faults) (now : Time)
    (req : Request) (st : Store) (c : Ctx) (msg : String) (hpath : req.path ≠ "/api/v1/log")
    (hc : c.written = false) (hd : c.chainDone = false)
    (h : (logRequest lib rest flt now req st c).2 = c.JSON 500 "error" msg) :
    (serve lib rest flt now req st c).2 =
      { rest { (middleware lib rest flt now req st c).2 with chainDone := true } with
        chainDone := true } := by
  have hm := (middleware_of_failure lib rest flt now req st c msg hpath hc h).2.2
  rw [hd] at hm
  simp [serve, Ctx.next, hm]

/-- C9: the sample request `POST /orders`, which matches no route, on each of the
four failures of the logging path: the status is 500, but the body is the error
object followed by the acknowledgment `{"status":"OK"}`, which the middleware
writes after `logRequest` returned; without failure the body is the
acknowledgment alone. -/
theorem failed_logging_acknowledged :
    (middleware sampleLib (fun c => c) mkdirFails sampleTime (sampleRequest "k" bodyLogin)
      emptyStore Ctx.unmatched).2.status = 500 ∧
    (middleware sampleLib (fun c => c) mkdirFails sampleTime (sampleRequest "k" bodyLogin)
      emptyStore Ctx.unmatched).2.body =
        "\x7b\"error\":\"Failed to create log directory\"\x7d\x7b\"status\":\"OK\"\x7d" ∧
    (middleware sampleLib (fun c => c) readAllFails sampleTime (sampleRequest "k" bodyLogin)
      emptyStore Ctx.unmatched).2.body =
        "\x7b\"error\":\"Failed to read request body\"\x7d\x7b\"status\":\"OK\"\x7d" ∧
    (middleware sampleLib (fun c => c) openFails sampleTime (sampleRequest "k" bodyLogin)
      emptyStore Ctx.unmatched).2.body =
        "\x7b\"error\":\"Failed to open log file\"\x7d\x7b\"status\":\"OK\"\x7d" ∧
    (middleware sampleLib (fun c => c) writeFails sampleTime (sampleRequest "k" bodyLogin)
      emptyStore Ctx.unmatched).2.body =
        "\x7b\"error\":\"Failed to write log entry\"\x7d\x7b\"status\":\"OK\"\x7d" ∧
    (middleware sampleLib (fun c => c) Faults.none sampleTime (sampleRequest "k" bodyLogin)
      emptyStore Ctx.unmatched).2.status = 200 ∧
    (middleware sampleLib (fun c => c) Faults.none sampleTime (sampleRequest "k" bodyLogin)
      emptyStore Ctx.unmatched).2.body = "\x7b\"status\":\"OK\"\x7d" := by
  refine ⟨by decide, by decide, by decide, by decide, by decide, by decide, by decide⟩

end LogNginx
